import Mathlib

/-!
Verification of the capstone-auth backend (Express + Mongoose) against its
specification.  The JavaScript source in src/backend is shallowly embedded:
documents become Lean structures, MongoDB collections become lists, each
route handler becomes a pure function from a database state and a request to
a response (and, for mutating handlers, a new database state).  Object ids
are modelled as natural numbers; HTTP status codes as natural numbers.
-/

namespace CapstoneAuth

/-- Roles, from the userSchema enum in server.js. -/
inductive Role : Type
  | normal
  | management
  | admin
deriving DecidableEq, Repr

/-- A credential subdocument (credentialSchema in server.js).  The field cid
models the Mongo subdocument _id. -/
structure Credential : Type where
  cid : Nat
  system : String
  username : String
  password : String
deriving DecidableEq, Repr

/-- A division subdocument (divisionSchema): name plus owned credentials. -/
structure Division : Type where
  did : Nat
  name : String
  credentials : List Credential
deriving DecidableEq, Repr

/-- An organisational unit document (ouSchema): name plus owned divisions. -/
structure OU : Type where
  oid : Nat
  name : String
  divisions : List Division
deriving DecidableEq, Repr

/-- A user document (userSchema).  ou and division are nullable ObjectId
references, modelled as Option Nat. -/
structure User : Type where
  uid : Nat
  name : String
  email : String
  passwordHash : String
  role : Role
  ou : Option Nat
  division : Option Nat
deriving DecidableEq, Repr

/-- The persistent store: the OU collection and the User collection. -/
structure DB : Type where
  ous : List OU
  users : List User
deriving DecidableEq, Repr

/-- JWT claim set signed by register/login: jwt.sign with id, email, role. -/
structure Claims : Type where
  id : Nat
  email : String
  role : Role
deriving DecidableEq, Repr

/-- Result of the auth middleware: either the request proceeds with decoded
claims attached as req.user, or it is rejected with a status and message. -/
inductive AuthResult : Type
  | proceed (claims : Claims)
  | reject (status : Nat) (error : String)
deriving DecidableEq, Repr

/-- Split of a character list at every space, the semantics of the JS
String.split with a single-space separator (structurally recursive so that
it evaluates inside the kernel). -/
def splitChars : List Char → List (List Char)
  | [] => [[]]
  | c :: rest =>
    if c = ' ' then [] :: splitChars rest
    else
      match splitChars rest with
      | [] => [[c]]
      | w :: ws => (c :: w) :: ws

/-- authHeader.split of a space in JS terms. -/
def jsSplitSpace (s : String) : List String :=
  (splitChars s.toList).map List.asString

/-- Extraction of the token from an Authorization header value, as done in
authMiddleware: split on a space, require parts[0] to be the Bearer scheme
and parts[1] to be present and non-empty (JS truthiness of token). -/
def bearerToken (h : String) : Option String :=
  let parts := jsSplitSpace h
  match parts[1]? with
  | none => none
  | some t => if parts.headD "" = "Bearer" ∧ t ≠ "" then some t else none

/-- The JWT auth guard from backend/middleware/auth.js.  verify abstracts
jwt.verify with the process secret: it returns the decoded claims, or none
when the token has an invalid signature, is expired, or is malformed. -/
def authMiddleware (verify : String → Option Claims) (authHeader : Option String) :
    AuthResult :=
  match authHeader with
  | none => .reject 401 "No Authorization header provided"
  | some h =>
    match bearerToken h with
    | none => .reject 401 "Malformed Authorization header. Use: Bearer <token>"
    | some token =>
      match verify token with
      | some decoded => .proceed decoded
      | none => .reject 403 "Invalid or expired token"

/-- Outcome of dispatching a protected route: either the handler ran, or the
middleware blocked the request before the handler. -/
inductive Routed (α : Type) : Type
  | handled (a : α)
  | blocked (status : Nat) (error : String)
deriving DecidableEq, Repr

/-- Composition of the auth middleware with a protected handler, as in
app.get(path, authMiddleware, handler): the handler runs only when the
middleware calls next() after attaching the decoded claims. -/
def routeWithAuth {α : Type} (verify : String → Option Claims)
    (authHeader : Option String) (handler : Claims → α) : Routed α :=
  match authMiddleware verify authHeader with
  | .proceed c => .handled (handler c)
  | .reject s e => .blocked s e

/-- Status of an auth-middleware outcome; none when the request proceeded. -/
def AuthResult.status : AuthResult → Option Nat
  | .proceed _ => none
  | .reject s _ => some s

/-- Replace the first element satisfying p by applying f to it, leaving all
other elements in place.  This models the Mongoose pattern of locating a
document or subdocument (findById, DocumentArray.id) and mutating it,
followed by save: only the located entry changes. -/
def replaceFirst {α : Type} (p : α → Bool) (f : α → α) : List α → List α
  | [] => []
  | x :: xs => if p x then f x :: xs else x :: replaceFirst p f xs

/-- User.findById: first user whose _id matches. -/
def findUserById (db : DB) (i : Nat) : Option User :=
  db.users.find? (fun u => u.uid == i)

/-- User.findOne on email: first user whose email matches. -/
def findUserByEmail (db : DB) (e : String) : Option User :=
  db.users.find? (fun u => u.email == e)

/-- OU.findById: first OU whose _id matches. -/
def findOUById (db : DB) (i : Nat) : Option OU :=
  db.ous.find? (fun o => o.oid == i)

/-- OU.findOne on divisions._id: first OU owning a division with that id. -/
def findOUByDivision (db : DB) (d : Nat) : Option OU :=
  db.ous.find? (fun o => o.divisions.any (fun dv => dv.did == d))

/-- ou.divisions.id(divId): first division subdocument with that id. -/
def findDivision (ou : OU) (d : Nat) : Option Division :=
  ou.divisions.find? (fun dv => dv.did == d)

/-- division.credentials.id(credId): first credential with that id. -/
def findCredential (dv : Division) (c : Nat) : Option Credential :=
  dv.credentials.find? (fun cr => cr.cid == c)

/-- ou.save(): the OU document is written back by its _id. -/
def saveOU (db : DB) (ou : OU) : DB :=
  { db with ous := replaceFirst (fun o => o.oid == ou.oid) (fun _ => ou) db.ous }

/-- In-place mutation of the division subdocument located by .id(d): the
first division with id d is replaced by dv. -/
def setDivision (ou : OU) (d : Nat) (dv : Division) : OU :=
  { ou with divisions := replaceFirst (fun x => x.did == d) (fun _ => dv) ou.divisions }

/-- In-place mutation of the credential subdocument located by .id(c): the
first credential with id c is replaced by cr. -/
def setCredential (dv : Division) (c : Nat) (cr : Credential) : Division :=
  { dv with credentials := replaceFirst (fun x => x.cid == c) (fun _ => cr) dv.credentials }

/-- user.save(): the user document is written back by its _id. -/
def saveUser (db : DB) (u : User) : DB :=
  { db with users := replaceFirst (fun x => x.uid == u.uid) (fun _ => u) db.users }

/-- getCurrentUser from server.js: re-fetch the acting user from the store
using the id inside the verified JWT claims (req.user). -/
def getCurrentUser (db : DB) (reqUser : Option Claims) : Option User :=
  match reqUser with
  | none => none
  | some c => findUserById db c.id

/-- The public projection of a user returned by the API (publicUser in
server.js): id, name, email, role, ou, division — no password hash field. -/
structure PublicUser : Type where
  id : Nat
  name : String
  email : String
  role : Role
  ou : Option Nat
  division : Option Nat
deriving DecidableEq, Repr

/-- publicUser from server.js. -/
def publicUser (u : User) : PublicUser :=
  { id := u.uid, name := u.name, email := u.email, role := u.role,
    ou := u.ou, division := u.division }

/-- jwt.sign of the payload used by register and login. -/
def signToken (u : User) : Claims :=
  { id := u.uid, email := u.email, role := u.role }

/-- Outcome of ensureDivisionAccess: either denied with a sent response, or
granted carrying the freshly fetched acting user. -/
inductive AccessResult : Type
  | denied (status : Nat) (error : String)
  | granted (user : User)
deriving DecidableEq, Repr

/-- ensureDivisionAccess from server.js: 401 when the acting user no longer
exists; for role normal, 403 unless the stored division reference equals the
target division id; management and admin are allowed through. -/
def ensureDivisionAccess (db : DB) (reqUser : Option Claims) (targetDivisionId : Nat) :
    AccessResult :=
  match getCurrentUser db reqUser with
  | none => .denied 401 "Unknown user"
  | some current =>
    if current.role = .normal then
      match current.division with
      | none => .denied 403 "Not allowed for this division"
      | some d =>
        if d ≠ targetDivisionId then .denied 403 "Not allowed for this division"
        else .granted current
    else .granted current

/-- Request body of POST /api/register.  Absent fields are none; role models
an extra client-supplied field that the handler never reads (it destructures
only name, email, password). -/
structure RegisterBody : Type where
  name : Option String
  email : Option String
  password : Option String
  role : Option String
deriving DecidableEq, Repr

/-- Response of POST /api/register. -/
inductive RegisterResult : Type
  | ok (token : Claims) (user : PublicUser)
  | err (status : Nat) (error : String)
deriving DecidableEq, Repr

/-- POST /api/register from server.js.  hash abstracts bcrypt.hash with its
salt; newId abstracts the ObjectId generated for the new document.  The JS
truthiness test on the three destructured fields rejects both absent and
empty values.  The stored role is the literal normal. -/
def register (db : DB) (hash : String → String) (newId : Nat) (body : RegisterBody) :
    RegisterResult × DB :=
  let name := body.name.getD ""
  let email := body.email.getD ""
  let password := body.password.getD ""
  if name = "" ∨ email = "" ∨ password = "" then
    (.err 400 "All fields required", db)
  else
    match findUserByEmail db email with
    | some _ => (.err 409 "Email already registered", db)
    | none =>
      let user : User :=
        { uid := newId, name := name, email := email,
          passwordHash := hash password, role := .normal,
          ou := none, division := none }
      (.ok (signToken user) (publicUser user), { db with users := db.users ++ [user] })

/-- Response of POST /api/login. -/
inductive LoginResult : Type
  | ok (token : Claims) (user : PublicUser)
  | err (status : Nat) (error : String)
deriving DecidableEq, Repr

/-- POST /api/login from server.js.  compare abstracts bcrypt.compare,
taking the submitted password and the stored hash. -/
def login (db : DB) (compare : String → String → Bool) (email password : String) :
    LoginResult :=
  match findUserByEmail db email with
  | none => .err 401 "Invalid email or password"
  | some user =>
    if compare password user.passwordHash then
      .ok (signToken user) (publicUser user)
    else .err 401 "Invalid email or password"

/-- Response of GET /api/divisions/:id/credentials. -/
inductive GetCredsResult : Type
  | ok (divisionId : Nat) (divisionName : String) (credentials : List Credential)
  | err (status : Nat) (error : String)
deriving DecidableEq, Repr

/-- HTTP status of a GetCredsResult (res.json defaults to 200). -/
def GetCredsResult.status : GetCredsResult → Nat
  | .ok _ _ _ => 200
  | .err s _ => s

/-- GET /api/divisions/:id/credentials from server.js: permission check via
ensureDivisionAccess first, then the positional-projection lookup of the OU
owning the division; 404 when no OU owns it. -/
def getCredentials (db : DB) (reqUser : Option Claims) (divId : Nat) : GetCredsResult :=
  match ensureDivisionAccess db reqUser divId with
  | .denied s e => .err s e
  | .granted _ =>
    match findOUByDivision db divId with
    | none => .err 404 "Division not found"
    | some result =>
      match findDivision result divId with
      | none => .err 404 "Division not found"
      | some division => .ok division.did division.name division.credentials

/-- Request body for credential creation (POST): JS truthiness requires each
field to be present and non-empty. -/
structure CredBody : Type where
  system : Option String
  username : Option String
  password : Option String
deriving DecidableEq, Repr

/-- Response of POST /api/divisions/:id/credentials (201 on success). -/
inductive AddCredResult : Type
  | ok (credentials : List Credential)
  | err (status : Nat) (error : String)
deriving DecidableEq, Repr

/-- HTTP status of an AddCredResult. -/
def AddCredResult.status : AddCredResult → Nat
  | .ok _ => 201
  | .err s _ => s

/-- POST /api/divisions/:id/credentials from server.js: access check, body
validation, OU lookup, push onto the located division subdocument, save.
newCredId abstracts the subdocument ObjectId generated by the push.  The
branch where the OU is found but contains no matching division cannot
happen; in JS it would throw on a null subdocument and the catch block would
answer 500, which the model mirrors. -/
def addCredential (db : DB) (reqUser : Option Claims) (divId : Nat) (newCredId : Nat)
    (body : CredBody) : AddCredResult × DB :=
  match ensureDivisionAccess db reqUser divId with
  | .denied s e => (.err s e, db)
  | .granted _ =>
    let system := body.system.getD ""
    let username := body.username.getD ""
    let password := body.password.getD ""
    if system = "" ∨ username = "" ∨ password = "" then
      (.err 400 "system, username, password are required", db)
    else
      match findOUByDivision db divId with
      | none => (.err 404 "Division not found", db)
      | some ou =>
        match findDivision ou divId with
        | none => (.err 500 "Server error", db)
        | some division =>
          let newCred : Credential :=
            { cid := newCredId, system := system, username := username,
              password := password }
          let division2 : Division :=
            { division with credentials := division.credentials ++ [newCred] }
          let ou2 : OU := setDivision ou divId division2
          (.ok division2.credentials, saveOU db ou2)

/-- Request body for credential update (PUT): a field is applied only when
it is not undefined, so omitted fields are none. -/
structure UpdateCredBody : Type where
  system : Option String
  username : Option String
  password : Option String
deriving DecidableEq, Repr

/-- Response of PUT /api/divisions/:id/credentials/:credId. -/
inductive UpdateCredResult : Type
  | ok (credential : Credential)
  | err (status : Nat) (error : String)
deriving DecidableEq, Repr

/-- HTTP status of an UpdateCredResult. -/
def UpdateCredResult.status : UpdateCredResult → Nat
  | .ok _ => 200
  | .err s _ => s

/-- PUT /api/divisions/:id/credentials/:credId from server.js: fresh user
fetch, 403 for role normal, OU lookup, credential lookup, then per-field
conditional assignment (undefined fields leave the prior value), save.  As
in addCredential, the missing-division-inside-found-OU branch mirrors the
JS null crash caught as 500. -/
def updateCredential (db : DB) (reqUser : Option Claims) (divId credId : Nat)
    (body : UpdateCredBody) : UpdateCredResult × DB :=
  match getCurrentUser db reqUser with
  | none => (.err 401 "Unknown user", db)
  | some current =>
    if current.role = .normal then
      (.err 403 "Permission denied: management or admin required", db)
    else
      match findOUByDivision db divId with
      | none => (.err 404 "Division not found", db)
      | some ou =>
        match findDivision ou divId with
        | none => (.err 500 "Server error", db)
        | some division =>
          match findCredential division credId with
          | none => (.err 404 "Credential not found", db)
          | some cred =>
            let cred2 : Credential :=
              { cred with
                  system := body.system.getD cred.system,
                  username := body.username.getD cred.username,
                  password := body.password.getD cred.password }
            let division2 : Division := setCredential division credId cred2
            let ou2 : OU := setDivision ou divId division2
            (.ok cred2, saveOU db ou2)

/-- One item of the GET /api/users listing: the projected fields id, name,
email, role, ou, division (the Mongo projection plus the map over items). -/
def usersListItem (u : User) : PublicUser :=
  { id := u.uid, name := u.name, email := u.email, role := u.role,
    ou := u.ou, division := u.division }

/-- Response of GET /api/users. -/
inductive ListUsersResult : Type
  | ok (items : List PublicUser)
  | err (status : Nat) (error : String)
deriving DecidableEq, Repr

/-- GET /api/users from server.js: fresh user fetch, 403 for role normal,
then the projected listing of every user. -/
def listUsers (db : DB) (reqUser : Option Claims) : ListUsersResult :=
  match getCurrentUser db reqUser with
  | none => .err 401 "Unknown user"
  | some current =>
    if current.role = .normal then .err 403 "Management or admin required"
    else .ok (db.users.map usersListItem)

/-- Response of POST /api/users/:id/assign and DELETE /api/users/:id/assign. -/
inductive AssignResult : Type
  | ok (user : PublicUser)
  | err (status : Nat) (error : String)
deriving DecidableEq, Repr

/-- HTTP status of an AssignResult. -/
def AssignResult.status : AssignResult → Nat
  | .ok _ => 200
  | .err s _ => s

/-- POST /api/users/:id/assign from server.js.  Body fields ouId and
divisionId are truthiness-checked (absent is none); the OU must exist, the
division must belong to that OU, the target user must exist; then both
references are written in one save. -/
def assignUser (db : DB) (reqUser : Option Claims) (targetId : Nat)
    (ouId divisionId : Option Nat) : AssignResult × DB :=
  match getCurrentUser db reqUser with
  | none => (.err 401 "Unknown user", db)
  | some current =>
    if current.role = .normal then
      (.err 403 "Management or admin required", db)
    else
      match ouId, divisionId with
      | some oid, some did =>
        (match findOUById db oid with
         | none => (.err 404 "OU not found", db)
         | some ou =>
           match findDivision ou did with
           | none => (.err 400 "divisionId does not belong to the specified OU", db)
           | some division =>
             match findUserById db targetId with
             | none => (.err 404 "User not found", db)
             | some user =>
               let user2 : User :=
                 { user with ou := some ou.oid, division := some division.did }
               (.ok (publicUser user2), saveUser db user2))
      | _, _ => (.err 400 "ouId and divisionId required", db)

/-- DELETE /api/users/:id/assign from server.js: both references are set to
null in one save. -/
def unassignUser (db : DB) (reqUser : Option Claims) (targetId : Nat) :
    AssignResult × DB :=
  match getCurrentUser db reqUser with
  | none => (.err 401 "Unknown user", db)
  | some current =>
    if current.role = .normal then
      (.err 403 "Management or admin required", db)
    else
      match findUserById db targetId with
      | none => (.err 404 "User not found", db)
      | some user =>
        let user2 : User := { user with ou := none, division := none }
        (.ok (publicUser user2), saveUser db user2)

/-- Parsing of the role body value against the allowed list in the role
endpoint: allowed.includes(role). -/
def parseRole : Option String → Option Role
  | some "normal" => some .normal
  | some "management" => some .management
  | some "admin" => some .admin
  | _ => none

/-- Response of PUT /api/users/:id/role. -/
inductive RoleResult : Type
  | ok (user : PublicUser) (requireReLogin : Bool)
  | err (status : Nat) (error : String)
deriving DecidableEq, Repr

/-- PUT /api/users/:id/role from server.js: fresh user fetch, 403 unless the
acting role is admin, role value validated against the allowed list, target
user fetched, role written, and requireReLogin compares the target id with
the acting id. -/
def changeRole (db : DB) (reqUser : Option Claims) (targetId : Nat)
    (roleBody : Option String) : RoleResult × DB :=
  match getCurrentUser db reqUser with
  | none => (.err 401 "Unknown user", db)
  | some current =>
    if current.role ≠ .admin then (.err 403 "Admin only", db)
    else
      match parseRole roleBody with
      | none => (.err 400 "Invalid role (normal | management | admin)", db)
      | some newRole =>
        match findUserById db targetId with
        | none => (.err 404 "User not found", db)
        | some user =>
          let user2 : User := { user with role := newRole }
          let requireReLogin := user2.uid == current.uid
          (.ok (publicUser user2) requireReLogin, saveUser db user2)

/-!
Concrete fixtures used by witness theorems: a store with one OU owning two
divisions, and three users, one per role.
-/

/-- Fixture credential. -/
def credFix : Credential :=
  { cid := 100, system := "sys", username := "root", password := "pw" }

/-- Fixture division owning one credential. -/
def divFix : Division := { did := 10, name := "IT", credentials := [credFix] }

/-- Fixture division owning no credential. -/
def divFix2 : Division := { did := 11, name := "Fin", credentials := [] }

/-- Fixture OU owning both divisions. -/
def ouFix : OU := { oid := 1, name := "News", divisions := [divFix, divFix2] }

/-- Fixture user with role normal, assigned to the first division. -/
def userN : User :=
  { uid := 2, name := "n", email := "n@x", passwordHash := "hn",
    role := .normal, ou := some 1, division := some 10 }

/-- Fixture user with role management, unassigned. -/
def userM : User :=
  { uid := 3, name := "m", email := "m@x", passwordHash := "hm",
    role := .management, ou := none, division := none }

/-- Fixture user with role admin, unassigned. -/
def userA : User :=
  { uid := 4, name := "a", email := "a@x", passwordHash := "ha",
    role := .admin, ou := none, division := none }

/-- Fixture store. -/
def dbFix : DB := { ous := [ouFix], users := [userN, userM, userA] }

/-- Fixture creation body with all fields present. -/
def credBodyFix : CredBody :=
  { system := some "s2", username := some "u2", password := some "p2" }

/-- Fixture registration body with all required fields present and no role
field supplied. -/
def regBodyFix : RegisterBody :=
  { name := some "z", email := some "z@x", password := some "zp", role := none }

/-- Fixture update body supplying only the password. -/
def updBodyFix : UpdateCredBody :=
  { system := none, username := none, password := some "newpw" }

/-- Verified claims of the fixture normal user. -/
def claimsN : Claims := { id := 2, email := "n@x", role := .normal }

/-- Verified claims of the fixture management user. -/
def claimsM : Claims := { id := 3, email := "m@x", role := .management }

/-- Verified claims of the fixture admin user. -/
def claimsA : Claims := { id := 4, email := "a@x", role := .admin }

/-!
Shared lemmas about the store primitives.
-/

/-- Locating an element with find? and replacing it with replaceFirst splits
the list into an unchanged prefix (no element of which matches), the
replaced element, and an unchanged suffix. -/
theorem replaceFirst_decomp {α : Type} (p : α → Bool) (f : α → α) :
    ∀ (l : List α) (a : α), l.find? p = some a →
      ∃ pre post, l = pre ++ a :: post
        ∧ replaceFirst p f l = pre ++ f a :: post
        ∧ ∀ x ∈ pre, p x = false := by
  intro l
  induction l with
  | nil => intro a h; simp at h
  | cons x xs ih =>
    intro a h
    by_cases hp : p x
    · have hxa : x = a := by
        rw [List.find?_cons_of_pos _ hp] at h
        exact Option.some.inj h
      subst hxa
      refine ⟨[], xs, by simp, ?_, by simp⟩
      simp [replaceFirst, hp]
    · rw [List.find?_cons_of_neg _ hp] at h
      obtain ⟨pre, post, h1, h2, h3⟩ := ih a h
      refine ⟨x :: pre, post, by simp [h1], ?_, ?_⟩
      · simp [replaceFirst, hp, h2]
      · intro y hy
        rcases List.mem_cons.mp hy with rfl | hy2
        · simpa using hp
        · exact h3 y hy2

/-- The image of the located element is a member of the updated list. -/
theorem mem_replaceFirst_of_find? {α : Type} (p : α → Bool) (f : α → α)
    (l : List α) (a : α) (h : l.find? p = some a) : f a ∈ replaceFirst p f l := by
  obtain ⟨pre, post, _, h2, _⟩ := replaceFirst_decomp p f l a h
  rw [h2]
  simp

/-- replaceFirst over a decomposed list whose prefix has no match and whose
pivot matches rewrites exactly the pivot. -/
theorem replaceFirst_append_not {α : Type} (p : α → Bool) (f : α → α)
    (pre post : List α) (a : α) (hpre : ∀ x ∈ pre, p x = false) (ha : p a = true) :
    replaceFirst p f (pre ++ a :: post) = pre ++ f a :: post := by
  induction pre with
  | nil => simp [replaceFirst, ha]
  | cons y ys ih =>
    have hy : p y = false := hpre y (by simp)
    have ih2 := ih (fun x hx => hpre x (by simp [hx]))
    simp [replaceFirst, hy, ih2]

/-- Given the acting user exists, ensureDivisionAccess either denies with
403 (exactly when the role is normal and the stored division reference is
not the target) or grants, carrying the fetched user. -/
theorem ensureAccess_cases (db : DB) (ru : Option Claims) (u : User) (divId : Nat)
    (h : getCurrentUser db ru = some u) :
    (u.role = .normal ∧ u.division ≠ some divId
      ∧ ensureDivisionAccess db ru divId = .denied 403 "Not allowed for this division")
    ∨ (¬ (u.role = .normal ∧ u.division ≠ some divId)
      ∧ ensureDivisionAccess db ru divId = .granted u) := by
  unfold ensureDivisionAccess
  rw [h]
  by_cases hr : u.role = .normal
  · cases hd : u.division with
    | none => left; simp [hr, hd]
    | some d =>
      by_cases hdd : d = divId
      · right
        subst hdd
        simp [hr, hd]
      · left
        simp [hr, hd, hdd]
  · right
    simp [hr]

/-!
Theorems for the claims.
-/

/-- Claim C1, counterexample: a request carrying a syntactically well-formed
bearer header whose token fails verification (invalid signature or expired)
is answered with status 403 by the auth middleware, not with a 401-class
response as the claim states. -/
theorem C1_counterexample :
    (authMiddleware (fun _ => none) (some "Bearer sometoken")).status = some 403
      ∧ (authMiddleware (fun _ => none) (some "Bearer sometoken")).status ≠ some 401 := by
  decide

/-- Claim C1, amended: every protected operation is guarded by the auth
middleware, and a request with a missing or malformed Authorization header
is blocked with status 401 before the handler runs, while a request whose
token fails verification (invalid, bad signature, or expired) is blocked
with status 403 before the handler runs; in every such case the handler
never executes. -/
theorem C1_auth_guard_blocks {α : Type} (verify : String → Option Claims)
    (hdr : Option String) (handler : Claims → α) :
    (hdr = none →
      routeWithAuth verify hdr handler
        = .blocked 401 "No Authorization header provided")
    ∧ (∀ h, hdr = some h → bearerToken h = none →
      routeWithAuth verify hdr handler
        = .blocked 401 "Malformed Authorization header. Use: Bearer <token>")
    ∧ (∀ h t, hdr = some h → bearerToken h = some t → verify t = none →
      routeWithAuth verify hdr handler
        = .blocked 403 "Invalid or expired token") := by
  refine ⟨?_, ?_, ?_⟩
  · intro h
    subst h
    rfl
  · intro h hh hb
    subst hh
    simp [routeWithAuth, authMiddleware, hb]
  · intro h t hh hb hv
    subst hh
    simp [routeWithAuth, authMiddleware, hb, hv]

/-- Witness for C1_auth_guard_blocks at a concrete failing verifier and a
concrete header. -/
theorem C1_auth_guard_blocks_witness :
    routeWithAuth (fun _ => none) (some "Bearer abc") (fun _ => (0 : Nat))
      = Routed.blocked 403 "Invalid or expired token" :=
  (C1_auth_guard_blocks (fun _ => none) (some "Bearer abc")
      (fun _ => (0 : Nat))).2.2 "Bearer abc" "abc" rfl rfl rfl

/-- Claim C9: a login with an unknown email and a login with a known email
but failing password comparison produce the same response, status 401 with
the message Invalid email or password, so the caller cannot tell which
check failed. -/
theorem C9_login_failure_indistinguishable (db : DB)
    (compare : String → String → Bool) (e1 p1 e2 p2 : String) (u : User)
    (h1 : findUserByEmail db e1 = none)
    (h2 : findUserByEmail db e2 = some u)
    (h3 : compare p2 u.passwordHash = false) :
    login db compare e1 p1 = login db compare e2 p2
      ∧ login db compare e1 p1 = .err 401 "Invalid email or password" := by
  have ha : login db compare e1 p1 = .err 401 "Invalid email or password" := by
    simp [login, h1]
  have hb : login db compare e2 p2 = .err 401 "Invalid email or password" := by
    simp [login, h2, h3]
  exact ⟨ha.trans hb.symm, ha⟩

/-- Witness for C9 on the fixture store with string-equality comparison. -/
theorem C9_login_failure_indistinguishable_witness :
    login dbFix (fun p h => p == h) "ghost@x" "hn"
      = login dbFix (fun p h => p == h) "n@x" "wrong" :=
  (C9_login_failure_indistinguishable dbFix
    (fun p h => p == h) "ghost@x" "hn" "n@x" "wrong" userN
    (by decide) (by decide) (by decide)).1

/-- Claim C3: when the freshly fetched acting user has role normal, the
credential-update endpoint answers 403 and leaves the store untouched, for
every division id, credential id, and body — including the acting user's
own division. -/
theorem C3_update_forbidden_for_normal (db : DB) (ru : Option Claims) (u : User)
    (divId credId : Nat) (body : UpdateCredBody)
    (h : getCurrentUser db ru = some u) (hr : u.role = .normal) :
    updateCredential db ru divId credId body
      = (.err 403 "Permission denied: management or admin required", db) := by
  unfold updateCredential
  rw [h]
  simp [hr]

/-- Witness for C3: the fixture normal user is denied an update in the very
division it is assigned to. -/
theorem C3_update_forbidden_for_normal_witness :
    updateCredential dbFix (some claimsN) 10 100 updBodyFix
      = (.err 403 "Permission denied: management or admin required", dbFix) :=
  C3_update_forbidden_for_normal dbFix (some claimsN) userN 10 100 updBodyFix
    (by decide) (by decide)

/-- Claim C2: for the credential-read and credential-add operations, a
freshly fetched acting user with role management or admin passes the
division access check for every division; a user with role normal passes it
exactly when the stored division reference equals the target division; and
each of the two endpoints answers 403 exactly when the role is normal and
the reference differs from the target. -/
theorem C2_read_add_access (db : DB) (ru : Option Claims) (u : User)
    (divId ncid : Nat) (body : CredBody) (h : getCurrentUser db ru = some u) :
    ((u.role = .management ∨ u.role = .admin) →
        ensureDivisionAccess db ru divId = .granted u)
    ∧ (u.role = .normal →
        (ensureDivisionAccess db ru divId = .granted u ↔ u.division = some divId))
    ∧ ((getCredentials db ru divId).status = 403
        ↔ u.role = .normal ∧ u.division ≠ some divId)
    ∧ ((addCredential db ru divId ncid body).1.status = 403
        ↔ u.role = .normal ∧ u.division ≠ some divId) := by
  rcases ensureAccess_cases db ru u divId h with ⟨hr, hd, he⟩ | ⟨hno, he⟩
  · refine ⟨?_, ?_, ?_, ?_⟩
    · intro hro
      rcases hro with hro | hro <;> rw [hro] at hr <;> simp at hr
    · intro _
      constructor
      · intro hg
        rw [he] at hg
        simp at hg
      · intro hdd
        exact absurd hdd hd
    · simp [getCredentials, he, GetCredsResult.status, hr, hd]
    · simp [addCredential, he, AddCredResult.status, hr, hd]
  · refine ⟨?_, ?_, ?_, ?_⟩
    · intro _
      exact he
    · intro hr
      have hdd : u.division = some divId := by
        by_contra hc
        exact hno ⟨hr, hc⟩
      simp [he, hdd]
    · have hst : (getCredentials db ru divId).status ≠ 403 := by
        unfold getCredentials
        rw [he]
        cases hou : findOUByDivision db divId with
        | none => simp [GetCredsResult.status]
        | some ou =>
          cases hdv : findDivision ou divId with
          | none => simp [hdv, GetCredsResult.status]
          | some dv => simp [hdv, GetCredsResult.status]
      exact ⟨fun hc => absurd hc hst, fun hc => absurd hc hno⟩
    · have hst : (addCredential db ru divId ncid body).1.status ≠ 403 := by
        unfold addCredential
        rw [he]
        by_cases hb : body.system.getD "" = "" ∨ body.username.getD "" = ""
            ∨ body.password.getD "" = ""
        · simp [hb, AddCredResult.status]
        · cases hou : findOUByDivision db divId with
          | none => simp [hb, hou, AddCredResult.status]
          | some ou =>
            cases hdv : findDivision ou divId with
            | none => simp [hb, hou, hdv, AddCredResult.status]
            | some dv => simp [hb, hou, hdv, AddCredResult.status]
      exact ⟨fun hc => absurd hc hst, fun hc => absurd hc hno⟩

/-- Witness for C2: the fixture normal user assigned to division 10 gets
403 when reading division 11. -/
theorem C2_read_add_access_witness :
    (getCredentials dbFix (some claimsN) 11).status = 403 :=
  (C2_read_add_access dbFix (some claimsN) userN 11 200 credBodyFix
    (by decide)).2.2.1.mpr (by decide)

/-- Claim C10: the division access check runs before the division existence
lookup.  When no OU owns the requested division id: a freshly fetched
normal user whose stored division reference differs from it still gets 403
from both read and add, while a management or admin user gets 404 from read
and, with a valid body, 404 from add. -/
theorem C10_access_before_lookup (db : DB) (ru : Option Claims) (u : User)
    (divId ncid : Nat) (body : CredBody)
    (h : getCurrentUser db ru = some u)
    (hne : findOUByDivision db divId = none) :
    (u.role = .normal → u.division ≠ some divId →
        getCredentials db ru divId = .err 403 "Not allowed for this division"
        ∧ (addCredential db ru divId ncid body).1
            = .err 403 "Not allowed for this division")
    ∧ ((u.role = .management ∨ u.role = .admin) →
        getCredentials db ru divId = .err 404 "Division not found"
        ∧ (body.system.getD "" ≠ "" → body.username.getD "" ≠ "" →
            body.password.getD "" ≠ "" →
            (addCredential db ru divId ncid body).1
              = .err 404 "Division not found")) := by
  constructor
  · intro hr hd
    have he : ensureDivisionAccess db ru divId
        = .denied 403 "Not allowed for this division" := by
      rcases ensureAccess_cases db ru u divId h with ⟨_, _, he⟩ | ⟨hno, _⟩
      · exact he
      · exact absurd ⟨hr, hd⟩ hno
    exact ⟨by simp [getCredentials, he], by simp [addCredential, he]⟩
  · intro hro
    have hnn : ¬ u.role = .normal := by
      rcases hro with hro | hro <;> simp [hro]
    have he : ensureDivisionAccess db ru divId = .granted u := by
      rcases ensureAccess_cases db ru u divId h with ⟨hr, _, _⟩ | ⟨_, he⟩
      · exact absurd hr hnn
      · exact he
    constructor
    · simp [getCredentials, he, hne]
    · intro hs hu hp
      simp [addCredential, he, hne, hs, hu, hp]

/-- Claim C5: whenever the change-role endpoint succeeds, the requireReLogin
field of the response is true exactly when the target user id equals the
acting user id taken from the verified claims. -/
theorem C5_requireReLogin_iff_self (db : DB) (c : Claims) (targetId : Nat)
    (rb : Option String) (pu : PublicUser) (rrl : Bool) (db2 : DB)
    (h : changeRole db (some c) targetId rb = (.ok pu rrl, db2)) :
    rrl = true ↔ targetId = c.id := by
  simp only [changeRole] at h
  split at h
  next hcur => exact absurd h (by simp)
  next current hcur =>
    split at h
    next hadm => exact absurd h (by simp)
    next hadm =>
      split at h
      next hpr => exact absurd h (by simp)
      next newRole hpr =>
        split at h
        next hu => exact absurd h (by simp)
        next user hu =>
          simp only [Prod.mk.injEq, RoleResult.ok.injEq] at h
          obtain ⟨⟨hpu, hrrl⟩, hdb⟩ := h
          have huid : user.uid = targetId := by
            have h2 : db.users.find? (fun x => x.uid == targetId) = some user := hu
            simpa using List.find?_some h2
          have hcid : current.uid = c.id := by
            have h2 : db.users.find? (fun x => x.uid == c.id) = some current := hcur
            simpa using List.find?_some h2
          rw [← hrrl]
          simp [huid, hcid]

/-- Witness for C5: the fixture admin changing its own role gets
requireReLogin equal to true. -/
theorem C5_requireReLogin_iff_self_witness :
    (true = true ↔ (4 : Nat) = claimsA.id) :=
  C5_requireReLogin_iff_self dbFix claimsA 4 (some "management")
    (publicUser { userA with role := .management }) true
    (saveUser dbFix { userA with role := .management }) (by decide)

/-- Claim C8: the registration handler never reads a client-supplied role
field, and every user it creates is stored with role normal. -/
theorem C8_register_ignores_role_field (db : DB) (hash : String → String)
    (nid : Nat) (body : RegisterBody) :
    (∀ r, register db hash nid { body with role := r } = register db hash nid body)
    ∧ (∀ res db2, register db hash nid body = (res, db2) →
        db2.users = db.users
        ∨ ∃ u2, db2.users = db.users ++ [u2] ∧ u2.role = .normal) := by
  constructor
  · intro r
    rfl
  · intro res db2 h
    simp only [register] at h
    by_cases hb : body.name.getD "" = "" ∨ body.email.getD "" = ""
        ∨ body.password.getD "" = ""
    · rw [if_pos hb] at h
      injection h with h1 h2
      subst h2
      left
      rfl
    · rw [if_neg hb] at h
      cases he : findUserByEmail db (body.email.getD "") with
      | some u =>
        rw [he] at h
        injection h with h1 h2
        subst h2
        left
        rfl
      | none =>
        rw [he] at h
        injection h with h1 h2
        subst h2
        right
        exact ⟨_, rfl, rfl⟩

/-- Witness for C8: registering with a client-supplied admin role gives the
same result as registering with no role field at all. -/
theorem C8_register_ignores_role_field_witness :
    register dbFix (fun p => p ++ "h") 9 { regBodyFix with role := some "admin" }
      = register dbFix (fun p => p ++ "h") 9 regBodyFix :=
  (C8_register_ignores_role_field dbFix (fun p => p ++ "h") 9 regBodyFix).1
    (some "admin")

/-- Claim C4: assignment validation and atomicity.  With an authorised
acting user: a nonexistent unit id yields 404 and a division id that is not
in the located unit yields the invalid-reference 400; every non-success
response leaves the store (hence the target user record) unchanged; and on
success the target user record is rewritten in place with both the unit and
the division reference set together, all other user records untouched. -/
theorem C4_assign_validation_and_atomicity (db : DB) (ru : Option Claims)
    (targetId : Nat) (ouId divisionId : Option Nat) :
    (∀ u oid did, getCurrentUser db ru = some u → ¬ u.role = .normal →
        ouId = some oid → divisionId = some did → findOUById db oid = none →
        assignUser db ru targetId ouId divisionId = (.err 404 "OU not found", db))
    ∧ (∀ u oid did ou, getCurrentUser db ru = some u → ¬ u.role = .normal →
        ouId = some oid → divisionId = some did →
        findOUById db oid = some ou → findDivision ou did = none →
        assignUser db ru targetId ouId divisionId
          = (.err 400 "divisionId does not belong to the specified OU", db))
    ∧ (∀ res db2, assignUser db ru targetId ouId divisionId = (res, db2) →
        (∀ pu, ¬ res = .ok pu) → db2 = db)
    ∧ (∀ pu db2, assignUser db ru targetId ouId divisionId = (.ok pu, db2) →
        ∃ oid did pre post u, ouId = some oid ∧ divisionId = some did
          ∧ db.users = pre ++ u :: post
          ∧ db2.users
              = pre ++ { u with ou := some oid, division := some did } :: post) := by
  refine ⟨?_, ?_, ?_, ?_⟩
  · intro u oid did hcur hr ho hd hne
    subst ho
    subst hd
    simp [assignUser, hcur, hr, hne]
  · intro u oid did ou hcur hr ho hd hou hdv
    subst ho
    subst hd
    simp [assignUser, hcur, hr, hou, hdv]
  · intro res db2 h hne
    simp only [assignUser] at h
    repeat' split at h
    all_goals injection h with h1 h2
    all_goals first
      | exact h2.symm
      | exact absurd h1.symm (hne _)
  · intro pu db2 h
    simp only [assignUser] at h
    split at h
    next => exact absurd h (by simp)
    next current hcur =>
      split at h
      next => exact absurd h (by simp)
      next hrole =>
        split at h
        case _ oid did =>
          split at h
          next => exact absurd h (by simp)
          next ou hou =>
            split at h
            next => exact absurd h (by simp)
            next dv hdv =>
              split at h
              next => exact absurd h (by simp)
              next user hu =>
                simp only [Prod.mk.injEq, AssignResult.ok.injEq] at h
                obtain ⟨hpu, hdb⟩ := h
                have houid : ou.oid = oid := by
                  have h2 : db.ous.find? (fun o => o.oid == oid) = some ou := hou
                  simpa using List.find?_some h2
                have hdid : dv.did = did := by
                  have h2 : ou.divisions.find? (fun x => x.did == did) = some dv := hdv
                  simpa using List.find?_some h2
                have huid : user.uid = targetId := by
                  have h2 : db.users.find? (fun x => x.uid == targetId) = some user := hu
                  simpa using List.find?_some h2
                have hfind : db.users.find? (fun x => x.uid == targetId) = some user := hu
                obtain ⟨pre, post, hsplit, hrepl, -⟩ :=
                  replaceFirst_decomp (fun x => x.uid == targetId)
                    (fun _ => { user with ou := some ou.oid, division := some dv.did })
                    db.users user hfind
                refine ⟨oid, did, pre, post, user, rfl, rfl, hsplit, ?_⟩
                rw [← hdb]
                have hsu : (saveUser db
                      { user with ou := some ou.oid, division := some dv.did }).users
                    = replaceFirst (fun x => x.uid == targetId)
                        (fun _ => { user with ou := some ou.oid, division := some dv.did })
                        db.users := by
                  simp [saveUser, huid]
                rw [hsu, hrepl, houid, hdid]
        next => exact absurd h (by simp)

/-- Claim C6: on a successful credential update, the response credential
keeps the identity of the stored one, each supplied field takes the body
value while each omitted field keeps its prior value, and the new store
state rewrites exactly that credential inside exactly its division inside
exactly its owning OU — every other credential in the list (and every other
division, OU, and user) is unchanged.  The Nodup hypothesis is the store
invariant that OU ids are unique within the collection. -/
theorem C6_partial_update_frame (db : DB) (ru : Option Claims) (divId credId : Nat)
    (body : UpdateCredBody) (c2 : Credential) (db2 : DB)
    (hnd : (db.ous.map OU.oid).Nodup)
    (h : updateCredential db ru divId credId body = (.ok c2, db2)) :
    ∃ ou dv cred preO postO preD postD preC postC,
      findOUByDivision db divId = some ou
      ∧ findDivision ou divId = some dv
      ∧ findCredential dv credId = some cred
      ∧ c2.cid = cred.cid
      ∧ c2.system = body.system.getD cred.system
      ∧ c2.username = body.username.getD cred.username
      ∧ c2.password = body.password.getD cred.password
      ∧ db.ous = preO ++ ou :: postO
      ∧ ou.divisions = preD ++ dv :: postD
      ∧ dv.credentials = preC ++ cred :: postC
      ∧ (∀ x ∈ preC, (x.cid == credId) = false)
      ∧ db2.ous = preO ++ { ou with divisions := preD ++ { dv with credentials := preC ++ c2 :: postC } :: postD } :: postO
      ∧ db2.users = db.users := by
  simp only [updateCredential] at h
  split at h
  next => exact absurd h (by simp)
  next current hcur =>
    split at h
    next => exact absurd h (by simp)
    next hrole =>
      split at h
      next => exact absurd h (by simp)
      next ou hou =>
        split at h
        next => exact absurd h (by simp)
        next dv hdv =>
          split at h
          next => exact absurd h (by simp)
          next cred hcred =>
            simp only [Prod.mk.injEq, UpdateCredResult.ok.injEq] at h
            obtain ⟨hc, hdb⟩ := h
            subst hc
            have hfindC : dv.credentials.find? (fun x => x.cid == credId) = some cred :=
              hcred
            obtain ⟨preC, postC, hsplC, hreplC, hpreC⟩ :=
              replaceFirst_decomp (fun x => x.cid == credId)
                (fun _ => { cred with system := body.system.getD cred.system, username := body.username.getD cred.username, password := body.password.getD cred.password })
                dv.credentials cred hfindC
            have hfindD : ou.divisions.find? (fun x => x.did == divId) = some dv := hdv
            obtain ⟨preD, postD, hsplD, hreplD, hpreD⟩ :=
              replaceFirst_decomp (fun x => x.did == divId)
                (fun _ => setCredential dv credId { cred with system := body.system.getD cred.system, username := body.username.getD cred.username, password := body.password.getD cred.password })
                ou.divisions dv hfindD
            have hfindO : db.ous.find?
                (fun o => o.divisions.any (fun x => x.did == divId)) = some ou := hou
            obtain ⟨preO, postO, hsplO, -, hpreO⟩ :=
              replaceFirst_decomp
                (fun o => o.divisions.any (fun x => x.did == divId))
                (fun o => o) db.ous ou hfindO
            have hndl : ((preO ++ ou :: postO).map OU.oid).Nodup := by
              rw [← hsplO]
              exact hnd
            have hneqO : ∀ x ∈ preO, (x.oid == ou.oid) = false := by
              intro x hx
              rw [List.map_append] at hndl
              have hdisj := (List.nodup_append.mp hndl).2.2
              have hxm : x.oid ∈ preO.map OU.oid := List.mem_map_of_mem _ hx
              have hne2 : x.oid ≠ ou.oid := by
                intro he
                exact hdisj hxm (by simp [he])
              simpa using hne2
            refine ⟨ou, dv, cred, preO, postO, preD, postD, preC, postC,
              hou, hdv, hcred, by simp, by simp, by simp, by simp,
              hsplO, hsplD, hsplC, hpreC, ?_, ?_⟩
            · rw [← hdb]
              have e1 : (saveOU db (setDivision ou divId (setCredential dv credId { cred with system := body.system.getD cred.system, username := body.username.getD cred.username, password := body.password.getD cred.password }))).ous
                  = replaceFirst (fun o => o.oid == ou.oid)
                      (fun _ => setDivision ou divId (setCredential dv credId { cred with system := body.system.getD cred.system, username := body.username.getD cred.username, password := body.password.getD cred.password }))
                      db.ous := rfl
              rw [e1, hsplO,
                replaceFirst_append_not _ _ preO postO ou hneqO (by simp)]
              simp only [setDivision]
              rw [hreplD]
              simp only [setCredential]
              rw [hreplC]
            · rw [← hdb]
              rfl

/-- A user document written back by saveUser is a member of the resulting
user collection. -/
theorem mem_saveUser_users (db : DB) (user u2 : User) (tid : Nat)
    (hu : findUserById db tid = some user) (he : u2.uid = user.uid) :
    u2 ∈ (saveUser db u2).users := by
  have huid : user.uid = tid := by
    have h2 : db.users.find? (fun x => x.uid == tid) = some user := hu
    simpa using List.find?_some h2
  have hfind : db.users.find? (fun x => x.uid == u2.uid) = some user := by
    rw [he, huid]
    exact hu
  have hm := mem_replaceFirst_of_find? (fun x => x.uid == u2.uid)
    (fun _ => u2) db.users user hfind
  simpa [saveUser] using hm

/-- Claim C7: the two user projections used in responses do not depend on
the stored password hash, and every user object any operation returns
(register, login, list users, assign, unassign, change role) is exactly the
projection of a stored user — so the hash never reaches a response. -/
theorem C7_no_password_hash_exposure :
    (∀ u ph, publicUser { u with passwordHash := ph } = publicUser u)
    ∧ (∀ u ph, usersListItem { u with passwordHash := ph } = usersListItem u)
    ∧ (∀ db hash nid body t pu db2,
        register db hash nid body = (.ok t pu, db2) →
        ∃ u, u ∈ db2.users ∧ pu = publicUser u)
    ∧ (∀ db compare e p t pu, login db compare e p = .ok t pu →
        ∃ u, u ∈ db.users ∧ pu = publicUser u)
    ∧ (∀ db ru items, listUsers db ru = .ok items →
        items = db.users.map usersListItem)
    ∧ (∀ db ru tid oid did pu db2,
        assignUser db ru tid oid did = (.ok pu, db2) →
        ∃ u, u ∈ db2.users ∧ pu = publicUser u)
    ∧ (∀ db ru tid pu db2,
        unassignUser db ru tid = (.ok pu, db2) →
        ∃ u, u ∈ db2.users ∧ pu = publicUser u)
    ∧ (∀ db ru tid rb pu rrl db2,
        changeRole db ru tid rb = (.ok pu rrl, db2) →
        ∃ u, u ∈ db2.users ∧ pu = publicUser u) := by
  refine ⟨fun u ph => rfl, fun u ph => rfl, ?_, ?_, ?_, ?_, ?_, ?_⟩
  · intro db hash nid body t pu db2 h
    simp only [register] at h
    split at h
    next => exact absurd h (by simp)
    next =>
      split at h
      next => exact absurd h (by simp)
      next =>
        simp only [Prod.mk.injEq, RegisterResult.ok.injEq] at h
        obtain ⟨⟨ht, hpu⟩, hdb⟩ := h
        refine ⟨_, ?_, hpu.symm⟩
        rw [← hdb]
        simp
  · intro db compare e p t pu h
    simp only [login] at h
    split at h
    next => exact absurd h (by simp)
    next user hfind =>
      split at h
      · simp only [LoginResult.ok.injEq] at h
        exact ⟨user, List.mem_of_find?_eq_some hfind, h.2.symm⟩
      · exact absurd h (by simp)
  · intro db ru items h
    simp only [listUsers] at h
    split at h
    next => exact absurd h (by simp)
    next =>
      split at h
      · exact absurd h (by simp)
      · simp only [ListUsersResult.ok.injEq] at h
        exact h.symm
  · intro db ru tid oid did pu db2 h
    simp only [assignUser] at h
    split at h
    next => exact absurd h (by simp)
    next current hcur =>
      split at h
      next => exact absurd h (by simp)
      next =>
        split at h
        case _ o d =>
          split at h
          next => exact absurd h (by simp)
          next ou hou =>
            split at h
            next => exact absurd h (by simp)
            next dv hdv =>
              split at h
              next => exact absurd h (by simp)
              next user hu =>
                simp only [Prod.mk.injEq, AssignResult.ok.injEq] at h
                obtain ⟨hpu, hdb⟩ := h
                refine ⟨_, ?_, hpu.symm⟩
                rw [← hdb]
                exact mem_saveUser_users db user _ tid hu (by simp)
        next => exact absurd h (by simp)
  · intro db ru tid pu db2 h
    simp only [unassignUser] at h
    split at h
    next => exact absurd h (by simp)
    next current hcur =>
      split at h
      next => exact absurd h (by simp)
      next =>
        split at h
        next => exact absurd h (by simp)
        next user hu =>
          simp only [Prod.mk.injEq, AssignResult.ok.injEq] at h
          obtain ⟨hpu, hdb⟩ := h
          refine ⟨_, ?_, hpu.symm⟩
          rw [← hdb]
          exact mem_saveUser_users db user _ tid hu (by simp)
  · intro db ru tid rb pu rrl db2 h
    simp only [changeRole] at h
    split at h
    next => exact absurd h (by simp)
    next current hcur =>
      split at h
      next => exact absurd h (by simp)
      next =>
        split at h
        next => exact absurd h (by simp)
        next newRole hpr =>
          split at h
          next => exact absurd h (by simp)
          next user hu =>
            simp only [Prod.mk.injEq, RoleResult.ok.injEq] at h
            obtain ⟨⟨hpu, hrrl⟩, hdb⟩ := h
            refine ⟨_, ?_, hpu.symm⟩
            rw [← hdb]
            exact mem_saveUser_users db user _ tid hu (by simp)

/-- Witness for C7: rewriting the fixture user's stored hash does not change
its public projection. -/
theorem C7_no_password_hash_exposure_witness :
    publicUser { userN with passwordHash := "other" } = publicUser userN :=
  C7_no_password_hash_exposure.1 userN "other"

/-- The credential produced by the fixture partial update: password from
the body, system and username retained. -/
def credUpdated : Credential :=
  { cid := 100, system := "sys", username := "root", password := "newpw" }

/-- Witness for C6: the fixture management user updates only the password of
the stored credential; identity, system, and username follow the claim. -/
theorem C6_partial_update_frame_witness :
    credUpdated.cid = credFix.cid
      ∧ credUpdated.system = updBodyFix.system.getD credFix.system
      ∧ credUpdated.username = updBodyFix.username.getD credFix.username
      ∧ credUpdated.password = updBodyFix.password.getD credFix.password := by
  obtain ⟨ou, dv, cred, preO, postO, preD, postD, preC, postC,
      hou, hdv, hcred, hcid, hsys, husr, hpw, -⟩ :=
    C6_partial_update_frame dbFix (some claimsM) 10 100 updBodyFix credUpdated
      ((updateCredential dbFix (some claimsM) 10 100 updBodyFix).2)
      (by decide) (by decide)
  have hou2 : ou = ouFix := by
    have he : findOUByDivision dbFix 10 = some ouFix := by decide
    injection (he.symm.trans hou) with hval
    exact hval.symm
  subst hou2
  have hdv2 : dv = divFix := by
    have he : findDivision ouFix 10 = some divFix := by decide
    injection (he.symm.trans hdv) with hval
    exact hval.symm
  subst hdv2
  have hcred2 : cred = credFix := by
    have he : findCredential divFix 100 = some credFix := by decide
    injection (he.symm.trans hcred) with hval
    exact hval.symm
  subst hcred2
  exact ⟨hcid, hsys, husr, hpw⟩

/-- Witness for C4: assigning through the fixture management user fails with
404 for a nonexistent unit and with 400 for a division of the wrong unit. -/
theorem C4_assign_validation_and_atomicity_witness :
    assignUser dbFix (some claimsM) 2 (some 99) (some 10)
        = (.err 404 "OU not found", dbFix)
      ∧ assignUser dbFix (some claimsM) 2 (some 1) (some 99)
          = (.err 400 "divisionId does not belong to the specified OU", dbFix) :=
  ⟨(C4_assign_validation_and_atomicity dbFix (some claimsM) 2 (some 99)
      (some 10)).1 userM 99 10 (by decide) (by decide) rfl rfl (by decide),
   (C4_assign_validation_and_atomicity dbFix (some claimsM) 2 (some 1)
      (some 99)).2.1 userM 1 99 ouFix (by decide) (by decide) rfl rfl
      (by decide) (by decide)⟩

/-- Witness for C10 at the nonexistent division id 99 of the fixture
store: 403 for the mismatched normal user, 404 for the management user. -/
theorem C10_access_before_lookup_witness :
    getCredentials dbFix (some claimsN) 99
        = .err 403 "Not allowed for this division"
      ∧ getCredentials dbFix (some claimsM) 99 = .err 404 "Division not found" :=
  ⟨((C10_access_before_lookup dbFix (some claimsN) userN 99 200 credBodyFix
      (by decide) (by decide)).1 (by decide) (by decide)).1,
   ((C10_access_before_lookup dbFix (some claimsM) userM 99 200 credBodyFix
      (by decide) (by decide)).2 (Or.inl (by decide))).1⟩

end CapstoneAuth

